import Mathlib

/-!
Verification of `formatTimeAgo` (src/packages/core/useTimeAgo/index.ts).

The TypeScript function is embedded shallowly.  JavaScript numbers are
modelled by `JNum`: exact rationals plus `NaN` and the two infinities
(the values that actually arise: timestamps of invalid dates are `NaN`,
and the default unit table uses `Infinity` as the last upper bound).
The locale-dependent pieces (`Intl.RelativeTimeFormat`, the full date
formatter) are black boxes, so the result type `TimeAgoResult` records
which formatter was invoked and with which arguments.
-/

namespace TimeAgo

/-- A JavaScript number: `NaN`, `Infinity`, `-Infinity` or a finite value
(modelled exactly as a rational). -/
inductive JNum where
  | nan
  | inf
  | ninf
  | fin (q : ℚ)
deriving DecidableEq

/-- JavaScript `a < b` (false whenever either side is `NaN`). -/
def jlt : JNum → JNum → Bool
  | .nan, _ => false
  | _, .nan => false
  | .ninf, .ninf => false
  | .ninf, _ => true
  | _, .ninf => false
  | .inf, _ => false
  | .fin a, .fin b => decide (a < b)
  | .fin _, .inf => true

/-- JavaScript `a <= b` (false whenever either side is `NaN`). -/
def jle : JNum → JNum → Bool
  | .nan, _ => false
  | _, .nan => false
  | .ninf, _ => true
  | _, .ninf => false
  | _, .inf => true
  | .inf, _ => false
  | .fin a, .fin b => decide (a ≤ b)

/-- JavaScript `a > b`, i.e. `b < a`. -/
def jgt (a b : JNum) : Bool := jlt b a

/-- JavaScript subtraction. -/
def jsub : JNum → JNum → JNum
  | .nan, _ => .nan
  | _, .nan => .nan
  | .inf, .inf => .nan
  | .ninf, .ninf => .nan
  | .inf, _ => .inf
  | .ninf, _ => .ninf
  | .fin _, .inf => .ninf
  | .fin _, .ninf => .inf
  | .fin a, .fin b => .fin (a - b)

/-- JavaScript `Math.abs`. -/
def jabs : JNum → JNum
  | .nan => .nan
  | .inf => .inf
  | .ninf => .inf
  | .fin q => .fin |q|

/-- JavaScript unary minus. -/
def jneg : JNum → JNum
  | .nan => .nan
  | .inf => .ninf
  | .ninf => .inf
  | .fin q => .fin (-q)

/-- JavaScript division (signed zero is not modelled: division of a finite
value by `0` uses the sign of the numerator, `0 / 0` is `NaN`). -/
def jdiv : JNum → JNum → JNum
  | .nan, _ => .nan
  | _, .nan => .nan
  | .inf, .inf => .nan
  | .inf, .ninf => .nan
  | .ninf, .inf => .nan
  | .ninf, .ninf => .nan
  | .inf, .fin v => if v < 0 then .ninf else .inf
  | .ninf, .fin v => if v < 0 then .inf else .ninf
  | .fin _, .inf => .fin 0
  | .fin _, .ninf => .fin 0
  | .fin q, .fin v =>
      if v = 0 then (if q = 0 then .nan else if q < 0 then .ninf else .inf)
      else .fin (q / v)

/-- JavaScript truthiness of a number: `0` and `NaN` are falsy. -/
def truthyJ : JNum → Bool
  | .nan => false
  | .fin q => decide (q ≠ 0)
  | _ => true

/-- `true` iff the number is finite and strictly positive. -/
def finPos : JNum → Bool
  | .fin q => decide (0 < q)
  | _ => false

/-- The `rounding` option of `FormatTimeAgoOptions`:
`'round' | 'ceil' | 'floor' | number` (a number `d` means
`n => +n.toFixed(d)`). -/
inductive Rounding where
  | round
  | ceil
  | floor
  | fixed (d : ℕ)
deriving DecidableEq

/-- The rounding function selected by the `rounding` option (`roundFn` in
the source).  `Math.round` rounds half-way cases toward `+∞`, which is
Mathlib's `round`; `toFixed(d)` rounds to the closest multiple of
`10 ^ (-d)`, half-way cases toward the larger value. -/
def roundJ : Rounding → JNum → JNum
  | _, .nan => .nan
  | _, .inf => .inf
  | _, .ninf => .ninf
  | .round, .fin q => .fin ((round q : ℤ) : ℚ)
  | .ceil, .fin q => .fin ((⌈q⌉ : ℤ) : ℚ)
  | .floor, .fin q => .fin ((⌊q⌋ : ℤ) : ℚ)
  | .fixed d, .fin q => .fin (((round (q * 10 ^ d) : ℤ) : ℚ) / 10 ^ d)

/-- `UseTimeAgoUnit`: one entry of the unit table. -/
structure TimeUnit where
  max : JNum
  value : JNum
  name : String
deriving DecidableEq

/-- The `max` option: a unit name or a number of milliseconds. -/
inductive MaxOption where
  | unitName (s : String)
  | num (m : JNum)
deriving DecidableEq

/-- `FormatTimeAgoOptions`.  Every field is optional; `none` means the
option was not supplied and the source's destructuring default applies.
`fullDateFormatter` and `relativeTimeOptions` are black boxes and are not
recorded (the result type records which formatter was reached instead). -/
structure FormatTimeAgoOptions where
  max : Option MaxOption := none
  showSecond : Option Bool := none
  rounding : Option Rounding := none
  locale : Option String := none
  units : Option (List TimeUnit) := none

/-- The observable result of `formatTimeAgo`:
`rtf locale value unit` stands for
`new Intl.RelativeTimeFormat(locale, ...).format(value, unit)`,
`fullDate t` for `fullDateFormatter(new Date(from))` applied to the
instant `t`, and `empty` for the final fallback `''`. -/
inductive TimeAgoResult where
  | rtf (locale : String) (value : JNum) (unit : String)
  | fullDate (t : JNum)
  | empty
deriving DecidableEq

/-- `DEFAULT_UNITS` from the source. -/
def DEFAULT_UNITS : List TimeUnit :=
  [ { max := JNum.fin 60000, value := JNum.fin 1000, name := "second" },
    { max := JNum.fin 2760000, value := JNum.fin 60000, name := "minute" },
    { max := JNum.fin 72000000, value := JNum.fin 3600000, name := "hour" },
    { max := JNum.fin 518400000, value := JNum.fin 86400000, name := "day" },
    { max := JNum.fin 2419200000, value := JNum.fin 604800000, name := "week" },
    { max := JNum.fin 28512000000, value := JNum.fin 2592000000, name := "month" },
    { max := JNum.inf, value := JNum.fin 31536000000, name := "year" } ]

/-- The inner `getValue(diff, unit)`: `roundFn(Math.abs(diff) / unit.value)`. -/
def getValue (roundFn : JNum → JNum) (diff : JNum) (unit : TimeUnit) : JNum :=
  roundFn (jdiv (jabs diff) unit.value)

/-- The inner `format(diff, unit)`: the relative-time formatter applied to
the (negated, when past) magnitude and the unit name. -/
def format (roundFn : JNum → JNum) (locale : String) (diff : JNum) (unit : TimeUnit) :
    TimeAgoResult :=
  TimeAgoResult.rtf locale
    (if jgt diff (JNum.fin 0) then jneg (getValue roundFn diff unit)
     else getValue roundFn diff unit)
    unit.name

/-- The `for (const [idx, unit] of units.entries())` loop.  `prev` is
`units[idx - 1]` (`none` at the first iteration, where the guard
`val <= 0 && units[idx - 1]` is false because `units[-1]` is undefined). -/
def scanUnits (roundFn : JNum → JNum) (locale : String) (diff absDiff : JNum) :
    Option TimeUnit → List TimeUnit → TimeAgoResult
  | _, [] => TimeAgoResult.empty
  | some p, unit :: rest =>
    if jle (getValue roundFn diff unit) (JNum.fin 0) then format roundFn locale diff p
    else if jlt absDiff unit.max then format roundFn locale diff unit
    else scanUnits roundFn locale diff absDiff (some unit) rest
  | none, unit :: rest =>
    if jlt absDiff unit.max then format roundFn locale diff unit
    else scanUnits roundFn locale diff absDiff (some unit) rest

/-- The guard `typeof max === 'number' && absDiff > max`. -/
def maxNumberExceeded : Option MaxOption → JNum → Bool
  | some (.num m), absDiff => jgt absDiff m
  | _, _ => false

/-- The guard `typeof max === 'string'` followed by
`const unitMax = units.find(i => i.name === max)?.max;
if (unitMax && absDiff > unitMax)` — note the truthiness test on
`unitMax`, which skips the threshold when the unit is missing or its
`max` field is `0` or `NaN`. -/
def maxUnitExceeded : Option MaxOption → List TimeUnit → JNum → Bool
  | some (.unitName s), units, absDiff =>
    match units.find? (fun i => i.name == s) with
    | some u => truthyJ u.max && jgt absDiff u.max
    | none => false
  | _, _, _ => false

/-- `formatTimeAgo(from, options, now)`.  `from'` and `now` are the numeric
timestamps `+from` and `+now` (`JNum.nan` for an invalid date).  The body
follows the source line by line: destructuring defaults, the sub-minute
early return, the numeric and the named `max` threshold, then the unit
scan, and the final fallback `''` inside `scanUnits`. -/
def formatTimeAgo (from' now : JNum) (opts : FormatTimeAgoOptions) : TimeAgoResult :=
  if jlt (jabs (jsub now from')) (JNum.fin 60000) && !(opts.showSecond.getD false) then
    TimeAgoResult.rtf (opts.locale.getD "ar") (JNum.fin 0) "second"
  else if maxNumberExceeded opts.max (jabs (jsub now from')) then
    TimeAgoResult.fullDate from'
  else if maxUnitExceeded opts.max (opts.units.getD DEFAULT_UNITS) (jabs (jsub now from')) then
    TimeAgoResult.fullDate from'
  else
    scanUnits (roundJ (opts.rounding.getD Rounding.round)) (opts.locale.getD "ar")
      (jsub now from') (jabs (jsub now from')) none (opts.units.getD DEFAULT_UNITS)

/-- The `prev` pointer after the loop has consumed the list `l`, having
entered it with pointer `prev`. -/
def lastOr : List TimeUnit → Option TimeUnit → Option TimeUnit
  | [], prev => prev
  | u :: rest, _ => lastOr rest (some u)

/-- The elements of `l` at which the loop's zero-magnitude guard is live
(those that have a predecessor, given the incoming `prev` pointer). -/
def zeroChecked (prev : Option TimeUnit) (l : List TimeUnit) : List TimeUnit :=
  match prev with
  | some _ => l
  | none => l.tail

theorem scanUnits_nil (roundFn : JNum → JNum) (locale : String) (diff absDiff : JNum)
    (prev : Option TimeUnit) :
    scanUnits roundFn locale diff absDiff prev [] = TimeAgoResult.empty := by
  cases prev <;> rfl

theorem scanUnits_cons_none (roundFn : JNum → JNum) (locale : String) (diff absDiff : JNum)
    (u : TimeUnit) (l : List TimeUnit) :
    scanUnits roundFn locale diff absDiff none (u :: l) =
      if jlt absDiff u.max then format roundFn locale diff u
      else scanUnits roundFn locale diff absDiff (some u) l := rfl

theorem scanUnits_cons_some (roundFn : JNum → JNum) (locale : String) (diff absDiff : JNum)
    (p u : TimeUnit) (l : List TimeUnit) :
    scanUnits roundFn locale diff absDiff (some p) (u :: l) =
      if jle (getValue roundFn diff u) (JNum.fin 0) then format roundFn locale diff p
      else if jlt absDiff u.max then format roundFn locale diff u
      else scanUnits roundFn locale diff absDiff (some u) l := rfl

theorem lastOr_isSome (l : List TimeUnit) (prev : Option TimeUnit) (h : l ≠ []) :
    (lastOr l prev).isSome = true := by
  induction l generalizing prev with
  | nil => exact absurd rfl h
  | cons u rest ih =>
    by_cases hr : rest = []
    · subst hr; rfl
    · exact ih (some u) hr

/-- Skipping a prefix of the unit table: if no unit of `l₁` fits the
difference and no live zero-magnitude guard fires on `l₁`, the loop walks
past `l₁` with the `prev` pointer set to its last element. -/
theorem scanUnits_append (roundFn : JNum → JNum) (locale : String) (diff absDiff : JNum)
    (l₂ : List TimeUnit) :
    ∀ (l₁ : List TimeUnit) (prev : Option TimeUnit),
      (∀ v ∈ l₁, jlt absDiff v.max = false) →
      (∀ v ∈ zeroChecked prev l₁, jle (getValue roundFn diff v) (JNum.fin 0) = false) →
      scanUnits roundFn locale diff absDiff prev (l₁ ++ l₂) =
        scanUnits roundFn locale diff absDiff (lastOr l₁ prev) l₂ := by
  intro l₁
  induction l₁ with
  | nil => intro prev _ _; rfl
  | cons u rest ih =>
    intro prev hfit hz
    have hfu : jlt absDiff u.max = false := hfit u (List.mem_cons_self u rest)
    have hrest : ∀ v ∈ rest, jlt absDiff v.max = false := fun v hv =>
      hfit v (List.mem_cons_of_mem u hv)
    have hzrest : ∀ v ∈ zeroChecked (some u) rest,
        jle (getValue roundFn diff v) (JNum.fin 0) = false := by
      intro v hv
      cases prev with
      | none => exact hz v hv
      | some p => exact hz v (List.mem_cons_of_mem u hv)
    cases prev with
    | none =>
      rw [List.cons_append, scanUnits_cons_none, if_neg (by simp [hfu])]
      exact ih (some u) hrest hzrest
    | some p =>
      have hzu : jle (getValue roundFn diff u) (JNum.fin 0) = false :=
        hz u (List.mem_cons_self u rest)
      rw [List.cons_append, scanUnits_cons_some, if_neg (by simp [hzu]),
        if_neg (by simp [hfu])]
      exact ih (some u) hrest hzrest

/-- If no unit fits and no zero-magnitude guard could fire, the loop falls
through and the function returns the final `''`. -/
theorem scanUnits_empty (roundFn : JNum → JNum) (locale : String) (diff absDiff : JNum)
    (l : List TimeUnit) (prev : Option TimeUnit)
    (hfit : ∀ v ∈ l, jlt absDiff v.max = false)
    (hz : ∀ v ∈ l, jle (getValue roundFn diff v) (JNum.fin 0) = false) :
    scanUnits roundFn locale diff absDiff prev l = TimeAgoResult.empty := by
  have hz2 : ∀ v ∈ zeroChecked prev l, jle (getValue roundFn diff v) (JNum.fin 0) = false := by
    intro v hv
    cases prev with
    | some p => exact hz v hv
    | none => exact hz v (List.mem_of_mem_tail hv)
  have h := scanUnits_append roundFn locale diff absDiff [] l prev hfit hz2
  rw [List.append_nil] at h
  rw [h, scanUnits_nil]

/-- The loop never reaches the full-date formatter. -/
theorem scanUnits_ne_fullDate (roundFn : JNum → JNum) (locale : String) (diff absDiff : JNum) :
    ∀ (l : List TimeUnit) (prev : Option TimeUnit) (t : JNum),
      scanUnits roundFn locale diff absDiff prev l ≠ TimeAgoResult.fullDate t := by
  intro l
  induction l with
  | nil =>
    intro prev t h
    rw [scanUnits_nil] at h
    exact TimeAgoResult.noConfusion h
  | cons u rest ih =>
    intro prev t h
    cases prev with
    | none =>
      rw [scanUnits_cons_none] at h
      by_cases hf : jlt absDiff u.max = true
      · rw [if_pos hf] at h; simp [format] at h
      · rw [if_neg hf] at h; exact ih (some u) t h
    | some p =>
      rw [scanUnits_cons_some] at h
      by_cases hzz : jle (getValue roundFn diff u) (JNum.fin 0) = true
      · rw [if_pos hzz] at h; simp [format] at h
      · rw [if_neg hzz] at h
        by_cases hf : jlt absDiff u.max = true
        · rw [if_pos hf] at h; simp [format] at h
        · rw [if_neg hf] at h; exact ih (some u) t h

/-- Every relative phrase produced by the loop is `format` applied to some
unit drawn from the scanned list (or from the incoming `prev` pointer). -/
theorem scanUnits_rtf (roundFn : JNum → JNum) (locale : String) (diff absDiff : JNum)
    (S : List TimeUnit) :
    ∀ (l : List TimeUnit) (prev : Option TimeUnit),
      (∀ p, prev = some p → p ∈ S) → (∀ v ∈ l, v ∈ S) →
      ∀ (loc : String) (v : JNum) (nm : String),
        scanUnits roundFn locale diff absDiff prev l = TimeAgoResult.rtf loc v nm →
        ∃ u, u ∈ S ∧ TimeAgoResult.rtf loc v nm = format roundFn locale diff u := by
  intro l
  induction l with
  | nil =>
    intro prev _ _ loc v nm h
    rw [scanUnits_nil] at h
    exact TimeAgoResult.noConfusion h
  | cons u rest ih =>
    intro prev hprev hmem loc v nm h
    have humem : u ∈ S := hmem u (List.mem_cons_self u rest)
    have hrest : ∀ x ∈ rest, x ∈ S := fun x hx => hmem x (List.mem_cons_of_mem u hx)
    have hnext : ∀ q, some u = some q → q ∈ S := by
      intro q hq
      injection hq with hq2
      exact hq2 ▸ humem
    cases prev with
    | none =>
      rw [scanUnits_cons_none] at h
      by_cases hf : jlt absDiff u.max = true
      · rw [if_pos hf] at h; exact ⟨u, humem, h.symm⟩
      · rw [if_neg hf] at h
        exact ih (some u) hnext hrest loc v nm h
    | some p =>
      have hpmem : p ∈ S := hprev p rfl
      rw [scanUnits_cons_some] at h
      by_cases hzz : jle (getValue roundFn diff u) (JNum.fin 0) = true
      · rw [if_pos hzz] at h; exact ⟨p, hpmem, h.symm⟩
      · rw [if_neg hzz] at h
        by_cases hf : jlt absDiff u.max = true
        · rw [if_pos hf] at h; exact ⟨u, humem, h.symm⟩
        · rw [if_neg hf] at h
          exact ih (some u) hnext hrest loc v nm h

/-- Every rounding mode sends a non-negative finite value to a
non-negative finite value. -/
theorem roundJ_fin_nonneg (r : Rounding) (x : ℚ) (hx : 0 ≤ x) :
    ∃ m : ℚ, roundJ r (JNum.fin x) = JNum.fin m ∧ 0 ≤ m := by
  cases r with
  | round =>
    refine ⟨((round x : ℤ) : ℚ), rfl, ?_⟩
    have h : (0 : ℤ) ≤ round x := by
      rw [round_eq]
      exact Int.floor_nonneg.mpr (by linarith)
    exact_mod_cast h
  | ceil =>
    refine ⟨((⌈x⌉ : ℤ) : ℚ), rfl, ?_⟩
    exact_mod_cast Int.ceil_nonneg hx
  | floor =>
    refine ⟨((⌊x⌋ : ℤ) : ℚ), rfl, ?_⟩
    exact_mod_cast Int.floor_nonneg.mpr hx
  | fixed d =>
    refine ⟨((round (x * 10 ^ d) : ℤ) : ℚ) / 10 ^ d, rfl, ?_⟩
    apply div_nonneg
    · have hx2 : (0 : ℚ) ≤ x * 10 ^ d := mul_nonneg hx (by positivity)
      have h : (0 : ℤ) ≤ round (x * 10 ^ d) := by
        rw [round_eq]
        exact Int.floor_nonneg.mpr (by linarith)
      exact_mod_cast h
    · positivity

theorem roundJ_nan (r : Rounding) : roundJ r JNum.nan = JNum.nan := by
  cases r <;> rfl

theorem roundJ_inf (r : Rounding) : roundJ r JNum.inf = JNum.inf := by
  cases r <;> rfl

theorem jabs_nan : jabs JNum.nan = JNum.nan := rfl

theorem jlt_nan_left (b : JNum) : jlt JNum.nan b = false := by cases b <;> rfl

theorem jdiv_nan_left (b : JNum) : jdiv JNum.nan b = JNum.nan := by cases b <;> rfl

/-- When neither the sub-minute early return nor one of the two `max`
guards fires, `formatTimeAgo` is the unit scan started with no previous
unit. -/
theorem formatTimeAgo_eq_scan (from' now : JNum) (opts : FormatTimeAgoOptions)
    (h1 : (jlt (jabs (jsub now from')) (JNum.fin 60000) && !(opts.showSecond.getD false)) = false)
    (h2 : maxNumberExceeded opts.max (jabs (jsub now from')) = false)
    (h3 : maxUnitExceeded opts.max (opts.units.getD DEFAULT_UNITS)
      (jabs (jsub now from')) = false) :
    formatTimeAgo from' now opts =
      scanUnits (roundJ (opts.rounding.getD Rounding.round)) (opts.locale.getD "ar")
        (jsub now from') (jabs (jsub now from')) none (opts.units.getD DEFAULT_UNITS) := by
  unfold formatTimeAgo
  rw [h1, h2, h3]
  rfl

/-- Claim C2: for every `from` and `now` with `|now - from| < 60000` ms
and `showSecond` false (its default), `formatTimeAgo` returns the
zero-second phrase, regardless of any `max` option. -/
theorem claim_C2_subminute (from' now : JNum) (opts : FormatTimeAgoOptions)
    (hlt : jlt (jabs (jsub now from')) (JNum.fin 60000) = true)
    (hss : opts.showSecond.getD false = false) :
    formatTimeAgo from' now opts =
      TimeAgoResult.rtf (opts.locale.getD "ar") (JNum.fin 0) "second" := by
  unfold formatTimeAgo
  rw [hlt, hss]
  rfl

/-- Witness for claim C2 (a `max` far below the difference is supplied and
is indeed irrelevant). -/
theorem claim_C2_subminute_witness :
    formatTimeAgo (JNum.fin 0) (JNum.fin 30000)
      { max := some (MaxOption.num (JNum.fin 10)) } =
      TimeAgoResult.rtf "ar" (JNum.fin 0) "second" :=
  claim_C2_subminute (JNum.fin 0) (JNum.fin 30000)
    { max := some (MaxOption.num (JNum.fin 10)) } (by with_unfolding_all decide) rfl

/-- Claim C7: an invalid `from` (timestamp `NaN`) makes the difference
`NaN`; every guard and every scan step compares false against `NaN`, so
`formatTimeAgo` falls through all branches and returns the empty string,
for every `now` and every option record. -/
theorem claim_C7_invalid_input_empty (now : JNum) (opts : FormatTimeAgoOptions) :
    formatTimeAgo JNum.nan now opts = TimeAgoResult.empty := by
  have hdiff : jsub now JNum.nan = JNum.nan := by cases now <;> rfl
  have hgt : ∀ m, jgt JNum.nan m = false := fun m => by cases m <;> rfl
  have h1 : (jlt (jabs (jsub now JNum.nan)) (JNum.fin 60000) &&
      !(opts.showSecond.getD false)) = false := by
    rw [hdiff]
    rfl
  have h2 : maxNumberExceeded opts.max (jabs (jsub now JNum.nan)) = false := by
    rw [hdiff]
    rcases opts.max with _ | mo
    · rfl
    · rcases mo with s | m
      · rfl
      · simpa [maxNumberExceeded] using hgt m
  have h3 : maxUnitExceeded opts.max (opts.units.getD DEFAULT_UNITS)
      (jabs (jsub now JNum.nan)) = false := by
    rw [hdiff]
    rcases opts.max with _ | mo
    · rfl
    · rcases mo with s | m
      · simp only [maxUnitExceeded]
        cases hf : (opts.units.getD DEFAULT_UNITS).find? (fun i => i.name == s) with
        | none => rfl
        | some u => simp [jabs_nan, hgt u.max]
      · rfl
  rw [formatTimeAgo_eq_scan JNum.nan now opts h1 h2 h3, hdiff]
  apply scanUnits_empty
  · intro v _
    rw [jabs_nan]
    exact jlt_nan_left v.max
  · intro v _
    show jle (roundJ (opts.rounding.getD Rounding.round) (jdiv (jabs JNum.nan) v.value))
      (JNum.fin 0) = false
    rw [jabs_nan, jdiv_nan_left, roundJ_nan (opts.rounding.getD Rounding.round)]
    rfl

/-- Counterexample to claim C3 as stated: with a custom unit table whose
first unit has `max = 0`, `max = "second"` names a unit of the table and
the difference (70000 ms) exceeds that unit's `max` field (0), yet the
function does not return the full date — the falsy `unitMax` silently
disables the threshold and the relative scan answers instead. -/
theorem claim_C3_counterexample :
    jgt (jabs (jsub (JNum.fin 70000) (JNum.fin 0))) (JNum.fin 0) = true ∧
    [(⟨JNum.fin 0, JNum.fin 1000, "second"⟩ : TimeUnit),
        ⟨JNum.inf, JNum.fin 60000, "minute"⟩].find? (fun i => i.name == "second") =
      some ⟨JNum.fin 0, JNum.fin 1000, "second"⟩ ∧
    formatTimeAgo (JNum.fin 0) (JNum.fin 70000)
      { max := some (MaxOption.unitName "second"),
        units := some [⟨JNum.fin 0, JNum.fin 1000, "second"⟩,
          ⟨JNum.inf, JNum.fin 60000, "minute"⟩] } =
      TimeAgoResult.rtf "ar" (JNum.fin (-1)) "minute" ∧
    TimeAgoResult.rtf "ar" (JNum.fin (-1)) "minute" ≠
      TimeAgoResult.fullDate (JNum.fin 0) := by
  set_option maxRecDepth 10000 in with_unfolding_all decide

/-- Claim C3 (amended): outside the sub-minute early return, if the `max`
option is a number exceeded by `|now - from|`, or the name of a unit of
the table whose `max` field is truthy (nonzero and not `NaN`) and
`|now - from|` exceeds that field, then `formatTimeAgo` returns the
absolute-date string for `from`. -/
theorem claim_C3_max_fulldate (from' now : JNum) (opts : FormatTimeAgoOptions)
    (h1 : (jlt (jabs (jsub now from')) (JNum.fin 60000) &&
      !(opts.showSecond.getD false)) = false)
    (hmax : (∃ m, opts.max = some (MaxOption.num m) ∧
        jgt (jabs (jsub now from')) m = true) ∨
      (∃ s u, opts.max = some (MaxOption.unitName s) ∧
        (opts.units.getD DEFAULT_UNITS).find? (fun i => i.name == s) = some u ∧
        truthyJ u.max = true ∧ jgt (jabs (jsub now from')) u.max = true)) :
    formatTimeAgo from' now opts = TimeAgoResult.fullDate from' := by
  unfold formatTimeAgo
  rw [h1]
  rcases hmax with ⟨m, hm, hgt⟩ | ⟨s, u, hm, hfind, htru, hgt⟩
  · rw [show maxNumberExceeded opts.max (jabs (jsub now from')) = true by
      rw [hm]; simpa [maxNumberExceeded] using hgt]
    rfl
  · cases hn : maxNumberExceeded opts.max (jabs (jsub now from')) with
    | true => rfl
    | false =>
      rw [show maxUnitExceeded opts.max (opts.units.getD DEFAULT_UNITS)
          (jabs (jsub now from')) = true by
        rw [hm]; simp [maxUnitExceeded, hfind, htru, hgt]]
      rfl

/-- Witness for claim C3 (both disjuncts exercised through the numeric
one: a numeric `max` of 90000 ms, difference 100000 ms). -/
theorem claim_C3_max_fulldate_witness :
    formatTimeAgo (JNum.fin 0) (JNum.fin 100000)
      { max := some (MaxOption.num (JNum.fin 90000)) } =
      TimeAgoResult.fullDate (JNum.fin 0) :=
  claim_C3_max_fulldate (JNum.fin 0) (JNum.fin 100000)
    { max := some (MaxOption.num (JNum.fin 90000)) }
    (by with_unfolding_all decide)
    (Or.inl ⟨JNum.fin 90000, rfl, by with_unfolding_all decide⟩)

/-- Claim C10: a string `max` that names no unit of the (possibly custom)
table, or names one whose `max` field is `0`, is silently ignored: the
result is the same as with no `max` at all, and the full-date formatter is
never reached. -/
theorem claim_C10_falsy_unit_max_ignored (from' now : JNum) (opts : FormatTimeAgoOptions)
    (s : String) (hmax : opts.max = some (MaxOption.unitName s))
    (hfind : (opts.units.getD DEFAULT_UNITS).find? (fun i => i.name == s) = none ∨
      ∃ u, (opts.units.getD DEFAULT_UNITS).find? (fun i => i.name == s) = some u ∧
        u.max = JNum.fin 0) :
    formatTimeAgo from' now opts = formatTimeAgo from' now { opts with max := none } ∧
      ∀ t, formatTimeAgo from' now opts ≠ TimeAgoResult.fullDate t := by
  have h2 : maxNumberExceeded opts.max (jabs (jsub now from')) = false := by
    rw [hmax]
    rfl
  have h3 : maxUnitExceeded opts.max (opts.units.getD DEFAULT_UNITS)
      (jabs (jsub now from')) = false := by
    rw [hmax]
    rcases hfind with hf | ⟨u, hf, hu0⟩
    · simp [maxUnitExceeded, hf]
    · simp [maxUnitExceeded, hf, hu0, truthyJ]
  constructor
  · unfold formatTimeAgo
    rw [h2, h3]
    cases hB : (jlt (jabs (jsub now from')) (JNum.fin 60000) &&
        !(opts.showSecond.getD false)) <;> rfl
  · intro t
    cases hB : (jlt (jabs (jsub now from')) (JNum.fin 60000) &&
        !(opts.showSecond.getD false)) with
    | false =>
      rw [formatTimeAgo_eq_scan from' now opts hB h2 h3]
      exact scanUnits_ne_fullDate _ _ _ _ _ _ t
    | true =>
      unfold formatTimeAgo
      rw [hB]
      simp

/-- Witness for claim C10: `max` names a unit absent from the default
table. -/
theorem claim_C10_falsy_unit_max_ignored_witness :
    formatTimeAgo (JNum.fin 0) (JNum.fin 100000)
      { max := some (MaxOption.unitName "fortnight") } =
      formatTimeAgo (JNum.fin 0) (JNum.fin 100000) { max := none } ∧
    ∀ t, formatTimeAgo (JNum.fin 0) (JNum.fin 100000)
      { max := some (MaxOption.unitName "fortnight") } ≠ TimeAgoResult.fullDate t :=
  claim_C10_falsy_unit_max_ignored (JNum.fin 0) (JNum.fin 100000)
    { max := some (MaxOption.unitName "fortnight") } "fortnight" rfl
    (Or.inl (by with_unfolding_all decide))

theorem jlt_inf_left (b : JNum) : jlt JNum.inf b = false := by cases b <;> rfl

theorem finPos_elim (x : JNum) (h : finPos x = true) :
    ∃ val : ℚ, x = JNum.fin val ∧ 0 < val := by
  cases x with
  | fin q => exact ⟨q, rfl, by simpa [finPos] using h⟩
  | nan => simp [finPos] at h
  | inf => simp [finPos] at h
  | ninf => simp [finPos] at h

/-- Counterexample to claim C1 as stated: with `floor` rounding and a
difference of 72 000 001 ms (just above the hour bucket), the first unit
whose bucket fits is the day unit, but the magnitude floors to zero there,
so the function answers with the hour phrase instead of the day phrase. -/
theorem claim_C1_counterexample :
    (DEFAULT_UNITS.find?
        (fun i => jlt (jabs (jsub (JNum.fin 72000001) (JNum.fin 0))) i.max)).map
      TimeUnit.name = some "day" ∧
    formatTimeAgo (JNum.fin 0) (JNum.fin 72000001) { rounding := some Rounding.floor } =
      TimeAgoResult.rtf "ar" (JNum.fin (-20)) "hour" ∧
    formatTimeAgo (JNum.fin 0) (JNum.fin 72000001) { rounding := some Rounding.floor } ≠
      format (roundJ Rounding.floor) "ar" (jsub (JNum.fin 72000001) (JNum.fin 0))
        ⟨JNum.fin 518400000, JNum.fin 86400000, "day"⟩ := by
  set_option maxRecDepth 10000 in with_unfolding_all decide

/-- Claim C1 (amended): outside the sub-minute early return and the `max`
thresholds, the scan returns the phrase of the first unit whose bucket
fits (`|diff| < unit.max`), with magnitude the configured rounding of
`|diff| / unit.value` — provided the rounded magnitude is positive at
every unit the scan visits after the first one (otherwise the
previous-unit fallback of the zero-magnitude edge case applies). -/
theorem claim_C1_first_fit (from' now : JNum) (opts : FormatTimeAgoOptions)
    (l₁ l₂ : List TimeUnit) (u : TimeUnit)
    (h1 : (jlt (jabs (jsub now from')) (JNum.fin 60000) &&
      !(opts.showSecond.getD false)) = false)
    (h2 : maxNumberExceeded opts.max (jabs (jsub now from')) = false)
    (h3 : maxUnitExceeded opts.max (opts.units.getD DEFAULT_UNITS)
      (jabs (jsub now from')) = false)
    (hunits : opts.units.getD DEFAULT_UNITS = l₁ ++ u :: l₂)
    (hnofit : ∀ v ∈ l₁, jlt (jabs (jsub now from')) v.max = false)
    (hfit : jlt (jabs (jsub now from')) u.max = true)
    (hz : ∀ v ∈ l₁.tail, jle (getValue (roundJ (opts.rounding.getD Rounding.round))
      (jsub now from') v) (JNum.fin 0) = false)
    (hzu : l₁ ≠ [] → jle (getValue (roundJ (opts.rounding.getD Rounding.round))
      (jsub now from') u) (JNum.fin 0) = false) :
    formatTimeAgo from' now opts =
      format (roundJ (opts.rounding.getD Rounding.round)) (opts.locale.getD "ar")
        (jsub now from') u := by
  rw [formatTimeAgo_eq_scan from' now opts h1 h2 h3, hunits,
    scanUnits_append _ _ _ _ (u :: l₂) l₁ none hnofit (fun v hv => hz v hv)]
  cases hlast : lastOr l₁ none with
  | none =>
    rw [scanUnits_cons_none, if_pos hfit]
  | some p =>
    have hne : l₁ ≠ [] := by
      intro hnil
      subst hnil
      exact Option.noConfusion hlast
    rw [scanUnits_cons_some, if_neg (by simp [hzu hne]), if_pos hfit]

/-- Witness for claim C1: default options, difference 100 000 ms; the
first fitting unit is the minute and the phrase is `-2` minutes. -/
theorem claim_C1_first_fit_witness :
    formatTimeAgo (JNum.fin 0) (JNum.fin 100000) {} =
      format (roundJ Rounding.round) "ar" (jsub (JNum.fin 100000) (JNum.fin 0))
        ⟨JNum.fin 2760000, JNum.fin 60000, "minute"⟩ :=
  claim_C1_first_fit (JNum.fin 0) (JNum.fin 100000) {}
    [⟨JNum.fin 60000, JNum.fin 1000, "second"⟩]
    [⟨JNum.fin 72000000, JNum.fin 3600000, "hour"⟩,
      ⟨JNum.fin 518400000, JNum.fin 86400000, "day"⟩,
      ⟨JNum.fin 2419200000, JNum.fin 604800000, "week"⟩,
      ⟨JNum.fin 28512000000, JNum.fin 2592000000, "month"⟩,
      ⟨JNum.inf, JNum.fin 31536000000, "year"⟩]
    ⟨JNum.fin 2760000, JNum.fin 60000, "minute"⟩
    (by with_unfolding_all decide) rfl rfl rfl
    (by with_unfolding_all decide) (by with_unfolding_all decide)
    (fun v hv => absurd hv (List.not_mem_nil v))
    (fun _ => by with_unfolding_all decide)

/-- Claim C4: if the scan reaches a unit at index `idx > 0` (nothing
before it fits, and no earlier live zero-magnitude guard fired) and the
magnitude there rounds to a value `≤ 0`, the function formats with the
previous, smaller unit `units[idx - 1]` instead of emitting a
zero-magnitude phrase for the coarser unit. -/
theorem claim_C4_zero_magnitude_fallback (from' now : JNum) (opts : FormatTimeAgoOptions)
    (l₀ l₂ : List TimeUnit) (p u : TimeUnit)
    (h1 : (jlt (jabs (jsub now from')) (JNum.fin 60000) &&
      !(opts.showSecond.getD false)) = false)
    (h2 : maxNumberExceeded opts.max (jabs (jsub now from')) = false)
    (h3 : maxUnitExceeded opts.max (opts.units.getD DEFAULT_UNITS)
      (jabs (jsub now from')) = false)
    (hunits : opts.units.getD DEFAULT_UNITS = l₀ ++ p :: u :: l₂)
    (hnofit : ∀ v ∈ l₀, jlt (jabs (jsub now from')) v.max = false)
    (hnofitp : jlt (jabs (jsub now from')) p.max = false)
    (hz : ∀ v ∈ l₀.tail, jle (getValue (roundJ (opts.rounding.getD Rounding.round))
      (jsub now from') v) (JNum.fin 0) = false)
    (hzp : l₀ ≠ [] → jle (getValue (roundJ (opts.rounding.getD Rounding.round))
      (jsub now from') p) (JNum.fin 0) = false)
    (hzu : jle (getValue (roundJ (opts.rounding.getD Rounding.round))
      (jsub now from') u) (JNum.fin 0) = true) :
    formatTimeAgo from' now opts =
      format (roundJ (opts.rounding.getD Rounding.round)) (opts.locale.getD "ar")
        (jsub now from') p := by
  rw [formatTimeAgo_eq_scan from' now opts h1 h2 h3, hunits,
    scanUnits_append _ _ _ _ (p :: u :: l₂) l₀ none hnofit (fun v hv => hz v hv)]
  cases hlast : lastOr l₀ none with
  | none =>
    rw [scanUnits_cons_none, if_neg (by simp [hnofitp]), scanUnits_cons_some, if_pos hzu]
  | some w =>
    have hne : l₀ ≠ [] := by
      intro hnil
      subst hnil
      exact Option.noConfusion hlast
    rw [scanUnits_cons_some, if_neg (by simp [hzp hne]), if_neg (by simp [hnofitp]),
      scanUnits_cons_some, if_pos hzu]

/-- Witness for claim C4: `floor` rounding, difference 72 000 001 ms; the
day magnitude floors to zero and the hour unit (index 2) is used. -/
theorem claim_C4_zero_magnitude_fallback_witness :
    formatTimeAgo (JNum.fin 0) (JNum.fin 72000001) { rounding := some Rounding.floor } =
      format (roundJ Rounding.floor) "ar" (jsub (JNum.fin 72000001) (JNum.fin 0))
        ⟨JNum.fin 72000000, JNum.fin 3600000, "hour"⟩ :=
  claim_C4_zero_magnitude_fallback (JNum.fin 0) (JNum.fin 72000001)
    { rounding := some Rounding.floor }
    [⟨JNum.fin 60000, JNum.fin 1000, "second"⟩,
      ⟨JNum.fin 2760000, JNum.fin 60000, "minute"⟩]
    [⟨JNum.fin 2419200000, JNum.fin 604800000, "week"⟩,
      ⟨JNum.fin 28512000000, JNum.fin 2592000000, "month"⟩,
      ⟨JNum.inf, JNum.fin 31536000000, "year"⟩]
    ⟨JNum.fin 72000000, JNum.fin 3600000, "hour"⟩
    ⟨JNum.fin 518400000, JNum.fin 86400000, "day"⟩
    (by with_unfolding_all decide) rfl rfl rfl
    (by with_unfolding_all decide) (by with_unfolding_all decide)
    (by with_unfolding_all decide) (fun _ => by with_unfolding_all decide)
    (by with_unfolding_all decide)

/-- Claim C9: when no `locale` option is supplied, every relative phrase
the function produces is rendered by a formatter constructed with the
fixed locale `"ar"`. -/
theorem claim_C9_default_locale (from' now : JNum) (opts : FormatTimeAgoOptions)
    (hloc : opts.locale = none) (loc : String) (v : JNum) (nm : String)
    (h : formatTimeAgo from' now opts = TimeAgoResult.rtf loc v nm) :
    formatTimeAgo from' now opts = TimeAgoResult.rtf "ar" v nm := by
  have hl : loc = "ar" := by
    have h' := h
    cases hB : (jlt (jabs (jsub now from')) (JNum.fin 60000) &&
        !(opts.showSecond.getD false)) with
    | true =>
      have he : formatTimeAgo from' now opts =
          TimeAgoResult.rtf (opts.locale.getD "ar") (JNum.fin 0) "second" := by
        unfold formatTimeAgo
        rw [hB]
        rfl
      rw [he] at h'
      injection h' with e1 e2 e3
      rw [← e1, hloc]
      rfl
    | false =>
      cases hN : maxNumberExceeded opts.max (jabs (jsub now from')) with
      | true =>
        have he : formatTimeAgo from' now opts = TimeAgoResult.fullDate from' := by
          unfold formatTimeAgo
          rw [hB, hN]
          rfl
        rw [he] at h'
        exact absurd h' (fun hh => TimeAgoResult.noConfusion hh)
      | false =>
        cases hU : maxUnitExceeded opts.max (opts.units.getD DEFAULT_UNITS)
            (jabs (jsub now from')) with
        | true =>
          have he : formatTimeAgo from' now opts = TimeAgoResult.fullDate from' := by
            unfold formatTimeAgo
            rw [hB, hN, hU]
            rfl
          rw [he] at h'
          exact absurd h' (fun hh => TimeAgoResult.noConfusion hh)
        | false =>
          rw [formatTimeAgo_eq_scan from' now opts hB hN hU] at h'
          obtain ⟨u, hu, heq⟩ := scanUnits_rtf _ _ _ _ (opts.units.getD DEFAULT_UNITS) _ none
            (fun p hp => Option.noConfusion hp) (fun x hx => hx) loc v nm h'
          unfold format at heq
          injection heq with e1 e2 e3
          rw [e1, hloc]
          rfl
  rw [h, hl]

/-- Witness for claim C9. -/
theorem claim_C9_default_locale_witness :
    formatTimeAgo (JNum.fin 0) (JNum.fin 0) {} =
      TimeAgoResult.rtf "ar" (JNum.fin 0) "second" :=
  claim_C9_default_locale (JNum.fin 0) (JNum.fin 0) {} rfl "ar" (JNum.fin 0) "second"
    (by with_unfolding_all decide)

/-- Claim C5: whenever the function renders a relative phrase (and each
unit size of the table is a positive finite number, as in the default
table), the value handed to the relative-time formatter is `-m` for a
non-negative magnitude `m` exactly when `from` is in the past
(`now - from > 0`), and the non-negative `m` itself otherwise. -/
theorem claim_C5_sign_convention (from' now : JNum) (opts : FormatTimeAgoOptions)
    (hwf : ∀ u ∈ opts.units.getD DEFAULT_UNITS, finPos u.value = true)
    (loc : String) (v : JNum) (nm : String)
    (h : formatTimeAgo from' now opts = TimeAgoResult.rtf loc v nm) :
    ∃ m : ℚ, 0 ≤ m ∧
      v = JNum.fin (if jgt (jsub now from') (JNum.fin 0) = true then -m else m) := by
  rcases hB : (jlt (jabs (jsub now from')) (JNum.fin 60000) &&
      !(opts.showSecond.getD false)) with _ | _
  rotate_left
  · have he : formatTimeAgo from' now opts =
        TimeAgoResult.rtf (opts.locale.getD "ar") (JNum.fin 0) "second" := by
      unfold formatTimeAgo
      rw [hB]
      rfl
    rw [he] at h
    injection h with e1 e2 e3
    refine ⟨0, le_refl 0, ?_⟩
    rw [← e2]
    by_cases hp : jgt (jsub now from') (JNum.fin 0) = true
    · simp [hp]
    · simp [hp]
  rcases hN : maxNumberExceeded opts.max (jabs (jsub now from')) with _ | _
  rotate_left
  · have he : formatTimeAgo from' now opts = TimeAgoResult.fullDate from' := by
      unfold formatTimeAgo
      rw [hB, hN]
      rfl
    rw [he] at h
    exact absurd h (fun hh => TimeAgoResult.noConfusion hh)
  rcases hU : maxUnitExceeded opts.max (opts.units.getD DEFAULT_UNITS)
      (jabs (jsub now from')) with _ | _
  rotate_left
  · have he : formatTimeAgo from' now opts = TimeAgoResult.fullDate from' := by
      unfold formatTimeAgo
      rw [hB, hN, hU]
      rfl
    rw [he] at h
    exact absurd h (fun hh => TimeAgoResult.noConfusion hh)
  rw [formatTimeAgo_eq_scan from' now opts hB hN hU] at h
  · cases hd : jsub now from' with
    | nan =>
      rw [hd] at h
      rw [scanUnits_empty _ _ _ _ _ _
        (fun w _ => by rw [jabs_nan]; exact jlt_nan_left w.max)
        (fun w _ => by
          show jle (roundJ (opts.rounding.getD Rounding.round)
            (jdiv (jabs JNum.nan) w.value)) (JNum.fin 0) = false
          rw [jabs_nan, jdiv_nan_left, roundJ_nan]
          rfl)] at h
      exact absurd h (fun hh => TimeAgoResult.noConfusion hh)
    | inf =>
      rw [hd] at h
      rw [scanUnits_empty _ _ _ _ _ _
        (fun w _ => by rw [show jabs JNum.inf = JNum.inf from rfl]; exact jlt_inf_left w.max)
        (fun w hw => by
          obtain ⟨val, hval, hvalpos⟩ := finPos_elim w.value (hwf w hw)
          show jle (roundJ (opts.rounding.getD Rounding.round)
            (jdiv (jabs JNum.inf) w.value)) (JNum.fin 0) = false
          rw [show jabs JNum.inf = JNum.inf from rfl, hval,
            show jdiv JNum.inf (JNum.fin val) = JNum.inf by
              simp [jdiv, not_lt.mpr hvalpos.le],
            roundJ_inf]
          rfl)] at h
      exact absurd h (fun hh => TimeAgoResult.noConfusion hh)
    | ninf =>
      rw [hd] at h
      rw [scanUnits_empty _ _ _ _ _ _
        (fun w _ => by rw [show jabs JNum.ninf = JNum.inf from rfl]; exact jlt_inf_left w.max)
        (fun w hw => by
          obtain ⟨val, hval, hvalpos⟩ := finPos_elim w.value (hwf w hw)
          show jle (roundJ (opts.rounding.getD Rounding.round)
            (jdiv (jabs JNum.ninf) w.value)) (JNum.fin 0) = false
          rw [show jabs JNum.ninf = JNum.inf from rfl, hval,
            show jdiv JNum.inf (JNum.fin val) = JNum.inf by
              simp [jdiv, not_lt.mpr hvalpos.le],
            roundJ_inf]
          rfl)] at h
      exact absurd h (fun hh => TimeAgoResult.noConfusion hh)
    | fin q =>
      rw [hd] at h
      obtain ⟨u, hu, heq⟩ := scanUnits_rtf _ _ _ _ (opts.units.getD DEFAULT_UNITS) _ none
        (fun p hp => Option.noConfusion hp) (fun x hx => hx) loc v nm h
      obtain ⟨val, hval, hvalpos⟩ := finPos_elim u.value (hwf u hu)
      have hgv : getValue (roundJ (opts.rounding.getD Rounding.round)) (JNum.fin q) u =
          roundJ (opts.rounding.getD Rounding.round) (JNum.fin (|q| / val)) := by
        unfold getValue
        rw [show jabs (JNum.fin q) = JNum.fin |q| from rfl, hval]
        congr 1
        simp [jdiv, hvalpos.ne']
      obtain ⟨m, hm, hm0⟩ := roundJ_fin_nonneg (opts.rounding.getD Rounding.round)
        (|q| / val) (div_nonneg (abs_nonneg q) hvalpos.le)
      unfold format at heq
      injection heq with e1 e2 e3
      refine ⟨m, hm0, ?_⟩
      rw [e2, hgv, hm]
      by_cases hp : jgt (JNum.fin q) (JNum.fin 0) = true
      · rw [if_pos hp, if_pos hp]
        rfl
      · rw [if_neg hp, if_neg hp]

/-- Witness for claim C5: a future instant, difference `-100000` ms; the
value handed to the formatter is the positive magnitude `2`. -/
theorem claim_C5_sign_convention_witness :
    ∃ m : ℚ, 0 ≤ m ∧ (JNum.fin 2 : JNum) =
      JNum.fin (if jgt (jsub (JNum.fin 0) (JNum.fin 100000)) (JNum.fin 0) = true
        then -m else m) :=
  claim_C5_sign_convention (JNum.fin 100000) (JNum.fin 0) {}
    (by with_unfolding_all decide) "ar" (JNum.fin 2) "minute"
    (by with_unfolding_all decide)

/-- Claim C6: the `rounding` option selects the magnitude function —
`'round'`, `'ceil'` and `'floor'` apply the corresponding mathematical
rounding to `|diff| / unit.value`, a numeric value `d` rounds to `d`
decimal places, and an absent option behaves as `'round'`. -/
theorem claim_C6_rounding_modes (q vu : ℚ) (u : TimeUnit) (d : ℕ)
    (hval : u.value = JNum.fin vu) (hvu : vu ≠ 0) :
    getValue (roundJ Rounding.round) (JNum.fin q) u =
      JNum.fin ((round (|q| / vu) : ℤ) : ℚ) ∧
    getValue (roundJ Rounding.ceil) (JNum.fin q) u =
      JNum.fin ((⌈|q| / vu⌉ : ℤ) : ℚ) ∧
    getValue (roundJ Rounding.floor) (JNum.fin q) u =
      JNum.fin ((⌊|q| / vu⌋ : ℤ) : ℚ) ∧
    getValue (roundJ (Rounding.fixed d)) (JNum.fin q) u =
      JNum.fin (((round (|q| / vu * 10 ^ d) : ℤ) : ℚ) / 10 ^ d) ∧
    ∀ (from' now : JNum) (opts : FormatTimeAgoOptions), opts.rounding = none →
      formatTimeAgo from' now opts =
        formatTimeAgo from' now { opts with rounding := some Rounding.round } := by
  have hdiv : jdiv (jabs (JNum.fin q)) u.value = JNum.fin (|q| / vu) := by
    rw [show jabs (JNum.fin q) = JNum.fin |q| from rfl, hval]
    simp [jdiv, hvu]
  refine ⟨?_, ?_, ?_, ?_, ?_⟩
  · unfold getValue
    rw [hdiv]
    rfl
  · unfold getValue
    rw [hdiv]
    rfl
  · unfold getValue
    rw [hdiv]
    rfl
  · unfold getValue
    rw [hdiv]
    rfl
  · intro from' now opts hr
    unfold formatTimeAgo
    rw [hr]
    rfl

/-- Witness for claim C6: the minute unit, difference 100 000 ms. -/
theorem claim_C6_rounding_modes_witness :
    getValue (roundJ Rounding.round) (JNum.fin 100000)
      ⟨JNum.fin 2760000, JNum.fin 60000, "minute"⟩ =
      JNum.fin ((round ((|(100000 : ℚ)| / 60000)) : ℤ) : ℚ) :=
  (claim_C6_rounding_modes 100000 60000 ⟨JNum.fin 2760000, JNum.fin 60000, "minute"⟩ 1
    rfl (by norm_num)).1

/-- Claim C8: the default unit table is well formed — the `max` bounds
are strictly increasing, the last entry's bound is `+Infinity`, and hence
every finite difference fits the bucket of some unit of the table. -/
theorem claim_C8_default_units_wf :
    List.Pairwise (fun a b => jlt a.max b.max = true) DEFAULT_UNITS ∧
    DEFAULT_UNITS.getLast? = some ⟨JNum.inf, JNum.fin 31536000000, "year"⟩ ∧
    ∀ q : ℚ, ∃ u ∈ DEFAULT_UNITS, jlt (JNum.fin |q|) u.max = true := by
  refine ⟨by with_unfolding_all decide, rfl, ?_⟩
  intro q
  exact ⟨⟨JNum.inf, JNum.fin 31536000000, "year"⟩, by simp [DEFAULT_UNITS], rfl⟩

example : formatTimeAgo (JNum.fin 0) (JNum.fin 30000) {} =
    TimeAgoResult.rtf "ar" (JNum.fin 0) "second" := by with_unfolding_all decide

example : formatTimeAgo (JNum.fin 0) (JNum.fin 100000) {} =
    TimeAgoResult.rtf "ar" (JNum.fin (-2)) "minute" := by with_unfolding_all decide

example : formatTimeAgo (JNum.fin 100000) (JNum.fin 0) {} =
    TimeAgoResult.rtf "ar" (JNum.fin 2) "minute" := by with_unfolding_all decide

example : formatTimeAgo (JNum.fin 0) (JNum.fin 72000001)
    { rounding := some Rounding.floor } =
    TimeAgoResult.rtf "ar" (JNum.fin (-20)) "hour" := by with_unfolding_all decide

example : formatTimeAgo JNum.nan (JNum.fin 0) {} = TimeAgoResult.empty := by with_unfolding_all decide

example : formatTimeAgo (JNum.fin 0) (JNum.fin 100000)
    { max := some (MaxOption.num (JNum.fin 90000)) } =
    TimeAgoResult.fullDate (JNum.fin 0) := by with_unfolding_all decide

example : formatTimeAgo (JNum.fin 0) (JNum.fin 100000000)
    { max := some (MaxOption.unitName "hour") } =
    TimeAgoResult.fullDate (JNum.fin 0) := by with_unfolding_all decide

end TimeAgo
